import Mathlib

/-!
Verification of the minimal concurrent HTTP/1.1 server in `app/server.go`
(repository rosnerdev/go-webserver).

The Go source is shallowly embedded over `List Char` / `String`:

* the byte stream of one TCP connection becomes a `ConnStream` (the bytes the
  peer delivers before closing, plus whether the close surfaces as a clean
  EOF or as some other I/O error);
* the filesystem collaborator becomes an `FS` record (a name-keyed blob
  store with injectable open failures, mid-read I/O errors, and write
  failures), since the spec designates it as an external collaborator;
* `bufio.Reader.ReadLine` / `ReadString`, `strings.TrimSpace`, `Split`,
  `SplitN`, `ToLower`, `strconv.Atoi`, `io.ReadFull`, `bufio.Scanner`
  (with `ScanLines`) and the two anchored regexps are each translated to
  explicit functions below, following the Go library semantics;
* `main`'s buffered-channel semaphore becomes the step relation `GateStep`.

Strings model Go byte strings; Go byte lengths are `String.utf8ByteSize`.
The bytes 0x0A and 0x0D that the line-oriented code branches on are
single-byte UTF-8 sequences, so splitting at the chars '\n' and '\r'
agrees with Go's byte-level splitting.
-/

/-- Go's `unicode.IsSpace`: the White_Space code points (`strings.TrimSpace`
trims these from both ends). -/
def goIsSpace (c : Char) : Bool :=
  c = ' ' || c = '\t' || c = '\n' || c = '\x0b' || c = '\x0c' || c = '\r' ||
  c.toNat = 0x85 || c.toNat = 0xA0 || c.toNat = 0x1680 ||
  (0x2000 ≤ c.toNat && c.toNat ≤ 0x200A) ||
  c.toNat = 0x2028 || c.toNat = 0x2029 || c.toNat = 0x202F ||
  c.toNat = 0x205F || c.toNat = 0x3000

/-- Go's `strings.TrimSpace` on a char list. -/
def trimGo (l : List Char) : List Char :=
  ((l.dropWhile goIsSpace).reverse.dropWhile goIsSpace).reverse

/-- Go's `strings.Split(s, sep)` for a one-char separator: split at every
occurrence, keeping empty fields; `Split("", sep) = [""]`. -/
def splitOnChar (sep : Char) : List Char → List (List Char)
  | [] => [[]]
  | c :: rest =>
    if c = sep then [] :: splitOnChar sep rest
    else
      match splitOnChar sep rest with
      | [] => [[c]]
      | l :: ls => (c :: l) :: ls

/-- Go's `strings.SplitN(s, sep, 2)` for a one-char separator: `none` when
the separator does not occur, otherwise the parts before and after its
first occurrence. -/
def splitFirst (sep : Char) : List Char → Option (List Char × List Char)
  | [] => none
  | c :: rest =>
    if c = sep then some ([], rest)
    else (splitFirst sep rest).map (fun p => (c :: p.1, p.2))

/-- Go's `unicode.ToLower` restricted to the code points whose lowercase
image can coincide with a character of the six recognized header names
(ASCII letters, plus U+0130 → 'i' and U+212A → 'k'; every other Unicode
simple lowercase mapping stays outside ASCII, so it cannot affect equality
with those ASCII-only names). -/
def goToLowerChar (c : Char) : Char :=
  if 'A' ≤ c ∧ c ≤ 'Z' then Char.ofNat (c.toNat + 32)
  else if c.toNat = 0x130 then 'i'
  else if c.toNat = 0x212A then 'k'
  else c

/-- Go's `strings.ToLower` (rune-wise map). -/
def lowerGo (s : String) : String :=
  (s.data.map goToLowerChar).asString

/-- Decimal digits of `n`, most significant first: the digit sequence
`fmt.Sprintf("%d", n)` / `strconv.Itoa` produce for a non-negative value.
Fueled so that it computes by kernel reduction; `fuel = n + 1` always
suffices since `n` has at most `n + 1` digits. -/
def decimalDigitsF : Nat → Nat → List Char
  | 0, _ => []
  | fuel + 1, n =>
    if n < 10 then [Nat.digitChar n]
    else decimalDigitsF fuel (n / 10) ++ [Nat.digitChar (n % 10)]

/-- Go's `fmt.Sprintf("%d", n)` for a non-negative `n`. -/
def decimalRepr (n : Nat) : String :=
  (decimalDigitsF (n + 1) n).asString

/-- Go byte length `len(s)` of a string. -/
def goLen (s : String) : Nat :=
  s.utf8ByteSize

/-- Go's `strings.HasPrefix`. -/
def hasPrefixGo (s pre : String) : Bool :=
  pre.data.isPrefixOf s.data

/-- The fixed-field header set of `server.go` (`type Headers struct`). -/
structure Headers where
  host : String
  userAgent : String
  accept : String
  contentLength : String
  contentType : String
  acceptEncoding : String
deriving DecidableEq

/-- The zero value `Headers{}`. -/
def emptyHeaders : Headers :=
  ⟨"", "", "", "", "", ""⟩

/-- The per-line body of `getHeaders`' loop: `strings.SplitN(line, ":", 2)`,
trim both sides, switch on the lowercased name, silently dropping lines
without a colon and unrecognized names.  `line` is the already-trimmed
header line. -/
def updateHeader (hs : Headers) (line : String) : Headers :=
  match splitFirst ':' line.data with
  | none => hs
  | some (np, vp) =>
    let headerName := lowerGo (trimGo np).asString
    let headerValue := (trimGo vp).asString
    if headerName = "host" then
      ⟨headerValue, hs.userAgent, hs.accept, hs.contentLength, hs.contentType, hs.acceptEncoding⟩
    else if headerName = "user-agent" then
      ⟨hs.host, headerValue, hs.accept, hs.contentLength, hs.contentType, hs.acceptEncoding⟩
    else if headerName = "accept" then
      ⟨hs.host, hs.userAgent, headerValue, hs.contentLength, hs.contentType, hs.acceptEncoding⟩
    else if headerName = "content-length" then
      ⟨hs.host, hs.userAgent, hs.accept, headerValue, hs.contentType, hs.acceptEncoding⟩
    else if headerName = "content-type" then
      ⟨hs.host, hs.userAgent, hs.accept, hs.contentLength, headerValue, hs.acceptEncoding⟩
    else if headerName = "accept-encoding" then
      ⟨hs.host, hs.userAgent, hs.accept, hs.contentLength, hs.contentType, headerValue⟩
    else hs

/-- One connection's incoming byte stream: the bytes the peer delivers
before the stream ends, and whether reading past them yields a clean
`io.EOF` (`errAtEnd = false`) or some other I/O error (`errAtEnd = true`). -/
structure ConnStream where
  data : List Char
  errAtEnd : Bool
deriving DecidableEq

/-- The delimiter scan shared by `bufio`'s `ReadString('\n')` /
`ReadSlice('\n')`: `some (line, rest)` with `line` ending in the `'\n'`
when a newline is present, `none` when the stream ends first. -/
def readStringNL : List Char → Option (List Char × List Char)
  | [] => none
  | c :: rest =>
    if c = '\n' then some ([c], rest)
    else (readStringNL rest).map (fun p => (c :: p.1, p.2))

/-- The loop of `getHeaders`, fueled (each iteration consumes the read
line, which contains at least its `'\n'`, so `data.length + 1` fuel always
suffices).  `none` is the error return: `ReadString` failed with something
other than `io.EOF`.  On clean EOF the loop breaks, discarding any
unterminated partial line, exactly as the Go code does. -/
def getHeadersF : Nat → List Char → Bool → Headers → Option (Headers × ConnStream)
  | 0, _, _, _ => none
  | fuel + 1, data, errAtEnd, hs =>
    match readStringNL data with
    | none => if errAtEnd then none else some (hs, ⟨[], errAtEnd⟩)
    | some (line, rest) =>
      let l := (trimGo line).asString
      if l = "" then some (hs, ⟨rest, errAtEnd⟩)
      else getHeadersF fuel rest errAtEnd (updateHeader hs l)

/-- `getHeaders(reader)`: consume header lines until a blank line or clean
EOF, else fail. -/
def getHeadersGo (st : ConnStream) (hs : Headers) : Option (Headers × ConnStream) :=
  getHeadersF (st.data.length + 1) st.data st.errAtEnd hs

/-- The terminator stripping of `bufio.Reader.ReadLine` for a line that
ends in `'\n'`: drop the `'\n'` and an immediately preceding `'\r'`. -/
def dropLineTerm (l : List Char) : List Char :=
  let l1 := l.dropLast
  match l1.getLast? with
  | some '\r' => l1.dropLast
  | _ => l1

/-- `bufio.Reader.ReadLine`: a terminated line is returned without its
terminator; when the stream ends before a newline, any buffered partial
data is returned with a nil error, and only an empty read reports the
error (`line, _, err := reader.ReadLine()` with `err != nil` exactly when
no byte was available).  The model returns whole lines regardless of
length, while the real `bufio.Reader` hands back at most its 4096-byte
buffer per call (signalled by `isPrefix`, which the Go code ignores);
request lines beyond that length are outside this model. -/
def bufioReadLine (st : ConnStream) : Option (String × ConnStream) :=
  match readStringNL st.data with
  | some (line, rest) => some ((dropLineTerm line).asString, ⟨rest, st.errAtEnd⟩)
  | none => if st.data = [] then none else some (st.data.asString, ⟨[], st.errAtEnd⟩)

/-- `getMethod`: first token of the trimmed request line split on spaces. -/
def getMethod (requestLine : String) : String :=
  match splitOnChar ' ' (trimGo requestLine.data) with
  | [] => ""
  | m :: _ => m.asString

/-- `getPath`: second token of the trimmed request line split on spaces,
or `""` when fewer than two tokens exist. -/
def getPath (requestLine : String) : String :=
  match splitOnChar ' ' (trimGo requestLine.data) with
  | _ :: p :: _ => p.asString
  | _ => ""

/-- Syntactic part of `strconv.Atoi`: an optional sign followed by at
least one ASCII digit, with the sign and the digit magnitude; `none` is a
syntax error. -/
def parseDec (s : String) : Option (Bool × Nat) :=
  match s.data with
  | [] => none
  | cs =>
    let p : Bool × List Char :=
      match cs with
      | '-' :: r => (true, r)
      | '+' :: r => (false, r)
      | _ => (false, cs)
    if p.2 = [] then none
    else if p.2.all (fun c => c.isDigit) then
      some (p.1, p.2.foldl (fun acc c => 10 * acc + (c.toNat - '0'.toNat)) 0)
    else none

/-- `strconv.Atoi` on a 64-bit platform: the returned value and whether
the error was nil.  On syntax error the value is 0; on range error it is
the clamped extreme of `int64` (the Go code discards the error but keeps
the value). -/
def goAtoi (s : String) : Int × Bool :=
  match parseDec s with
  | none => (0, false)
  | some (neg, n) =>
    if neg then
      if (n : Int) > 2 ^ 63 then (-(2 ^ 63), false) else (-(n : Int), true)
    else
      if (n : Int) > 2 ^ 63 - 1 then (2 ^ 63 - 1, false) else ((n : Int), true)

/-- `io.ReadFull(reader, body)` with `len(body) = n`: exactly `n` bytes on
success, an error when the stream holds fewer (a zero-length read always
succeeds without touching the stream). -/
def readFull (st : ConnStream) (n : Nat) : Option (String × ConnStream) :=
  if n ≤ st.data.length then
    some ((st.data.take n).asString, ⟨st.data.drop n, st.errAtEnd⟩)
  else none

/-- Outcome of the POST body phase of `handleConnection`. -/
inductive BodyOutcome where
  | panicked
  | failed
  | ok (body : String) (rest : ConnStream)
deriving DecidableEq

/-- The Go runtime's allocation ceiling for `make([]byte, n)` on a 64-bit
platform (`runtime.maxAlloc`, `1 << 48` on linux/amd64): `makeslice`
panics with `len out of range` when `n` is negative or exceeds it. -/
def goMaxAlloc : Nat := 2 ^ 48

/-- The body phase: `contentLength, _ := strconv.Atoi(headers.ContentLength)`
(error discarded), `body = make([]byte, contentLength)`,
`io.ReadFull(reader, body)`.  `make([]byte, n)` with a negative `n`, or
one above the runtime allocation limit (such as the clamped `maxInt64`
that `Atoi` returns for an out-of-range decimal), is a runtime panic
(`makeslice: len out of range`) which the Go code does not recover; this
is the `panicked` outcome. -/
def readBodyGo (hs : Headers) (st : ConnStream) : BodyOutcome :=
  let contentLength := (goAtoi hs.contentLength).1
  if contentLength < 0 ∨ (goMaxAlloc : Int) < contentLength then .panicked
  else
    match readFull st contentLength.toNat with
    | none => .failed
    | some (body, rest) => .ok body rest

/-- Result of one read of a stored blob by the Files handler: the open can
fail (`os.Open` error), succeed with the full content available, or
succeed but hit an I/O error after `partialData` bytes were delivered. -/
inductive ReadResult where
  | noFile
  | ok (content : String)
  | ioError (partialData : String)
deriving DecidableEq

/-- The filesystem collaborator: what reading each name yields, and
whether `os.WriteFile` succeeds for each name. -/
structure FS where
  read : String → ReadResult
  writeOk : String → Bool

/-- `dropCR` of `bufio.ScanLines`: remove one trailing `'\r'`. -/
def dropCR (l : List Char) : List Char :=
  if l.getLast? = some '\r' then l.dropLast else l

/-- `bufio.MaxScanTokenSize`: the scanner's buffer stops growing at this
many bytes; once that many bytes are buffered with no newline among them,
`Scan` stops with `ErrTooLong` before a token can be produced. -/
def maxScanTokenSize : Nat := 65536

/-- The token sequence `bufio.Scanner` with `ScanLines` yields over the
bytes `cs` that the reader delivers before ending (by clean EOF or by an
I/O error — after any reader error the scanner calls the split function
with `atEOF = true`, so the pending partial line is still emitted as a
final token): each segment before a `'\n'`, `dropCR`-ed; a final
unterminated nonempty segment, also `dropCR`-ed; but a segment whose byte
length reaches `maxScanTokenSize` fills the buffer without a newline, so
the scan stops there with `ErrTooLong` and neither it nor anything after
it is yielded.  Fueled; each step consumes the segment and its newline,
so `cs.length + 1` fuel always suffices. -/
def scanGoF : Nat → List Char → List (List Char)
  | 0, _ => []
  | fuel + 1, cs =>
    match readStringNL cs with
    | some (line, rest) =>
      if maxScanTokenSize ≤ (line.dropLast.asString).utf8ByteSize then []
      else dropCR line.dropLast :: scanGoF fuel rest
    | none =>
      if cs = [] then []
      else if maxScanTokenSize ≤ (cs.asString).utf8ByteSize then []
      else [dropCR cs]

/-- The scanner's tokens over a delivered byte sequence. -/
def scanGo (cs : List Char) : List (List Char) :=
  scanGoF (cs.length + 1) cs

/-- The `fileContent` accumulated by the Files GET loop over the bytes `b`
the reader delivers: the concatenation of the scanner's tokens — `b` with
line terminators stripped, truncated at the first over-long line since the
Go code never checks `scanner.Err()`. -/
def goStrip (b : String) : String :=
  String.join ((scanGo b.data).map List.asString)

/-- The anchored regexp of `handleEcho`, `^/echo(/(?P<toEcho>.*))?$`:
matches `"/echo"` with an empty capture, or `"/echo/" ++ t` capturing `t`
provided `t` has no `'\n'` (Go's `.` does not match a newline and `$`
anchors at end of text), and fails otherwise. -/
def echoMatch (path : String) : Option String :=
  if ("/echo").data.isPrefixOf path.data then
    match path.data.drop 5 with
    | [] => some ""
    | '/' :: t => if '\n' ∈ t then none else some t.asString
    | _ => none
  else none

/-- The anchored regexp of `handleFiles`, `^/files(/(?P<fileName>.*))?$`,
with the same newline caveat. -/
def filesMatch (path : String) : Option String :=
  if ("/files").data.isPrefixOf path.data then
    match path.data.drop 6 with
    | [] => some ""
    | '/' :: t => if '\n' ∈ t then none else some t.asString
    | _ => none
  else none

/-- `handleEcho(path, headers)`. -/
def handleEcho (path : String) (headers : Headers) : String × String :=
  match echoMatch path with
  | some toEcho =>
    if toEcho = "" then
      ("200 OK", "Content-Type: text/plain\r\nContent-Length: 0\r\n\r\n")
    else if headers.acceptEncoding = "gzip" then
      ("200 OK",
        "Content-Type: text/plain\r\nContent-Encoding: gzip\r\nContent-Length: " ++
          decimalRepr (goLen toEcho) ++ "\r\n\r\n" ++ toEcho)
    else
      ("200 OK",
        "Content-Type: text/plain\r\nContent-Length: " ++
          decimalRepr (goLen toEcho) ++ "\r\n\r\n" ++ toEcho)
  | none => ("404 Not Found", "\r\n")

/-- `handleUserAgent(headers)`. -/
def handleUserAgent (headers : Headers) : String × String :=
  ("200 OK",
    "Content-Type: text/plain\r\nContent-Length: " ++
      decimalRepr (goLen headers.userAgent) ++ "\r\n\r\n" ++ headers.userAgent)

/-- `handleFiles(path, method, body)`, also returning the filesystem state
after a successful write.  The GET branch mirrors the unchecked
`bufio.Scanner` loop: an error from `os.Open` yields 404, but a scan
interrupted by an I/O error still yields 200 with whatever was
concatenated from the delivered bytes, and an over-long line silently
truncates the served content (`scanner.Err()` is never consulted). -/
def handleFiles (fs : FS) (path method : String) (body : String) : (String × String) × FS :=
  match filesMatch path with
  | some fileName =>
    if method = "GET" then
      if fileName = "" then
        (("200 OK", "Content-Type: text/plain\r\nContent-Length: 0\r\n\r\n"), fs)
      else
        match fs.read fileName with
        | .noFile => (("404 Not Found", "\r\n"), fs)
        | .ok content =>
          (("200 OK",
              "Content-Type: application/octet-stream\r\nContent-Length: " ++
              decimalRepr (goLen (goStrip content)) ++ "\r\n\r\n" ++ goStrip content), fs)
        | .ioError partialData =>
          (("200 OK",
              "Content-Type: application/octet-stream\r\nContent-Length: " ++
              decimalRepr (goLen (goStrip partialData)) ++ "\r\n\r\n" ++
              goStrip partialData), fs)
    else if method = "POST" then
      if fileName = "" then (("400 Bad Request", "\r\n"), fs)
      else if fs.writeOk fileName then
        (("201 Created", "\r\n"),
          ⟨fun n => if n = fileName then .ok body else fs.read n, fs.writeOk⟩)
      else (("500 Internal Server Error", "\r\n"), fs)
    else (("404 Not Found", "\r\n"), fs)
  | none => (("404 Not Found", "\r\n"), fs)

/-- `getResponse(path, lastLine, headers)`; the `lastLine` argument is the
dead `body` parameter the Go code passes to the Files GET branch. -/
def getResponse (fs : FS) (path lastLine : String) (headers : Headers) : String × String :=
  if path = "/" then ("200 OK", "\r\n")
  else if hasPrefixGo path "/echo" then handleEcho path headers
  else if path = "/user-agent" then handleUserAgent headers
  else if hasPrefixGo path "/files" then (handleFiles fs path "GET" lastLine).1
  else ("404 Not Found", "\r\n")

/-- `postResponse(path, body)`. -/
def postResponse (fs : FS) (path body : String) : (String × String) × FS :=
  if hasPrefixGo path "/files" then handleFiles fs path "POST" body
  else (("404 Not Found", "\r\n"), fs)

/-- The `switch method` of `handleConnection` producing
`(statusCode, restResponse)`. -/
def routeSwitch (fs : FS) (method path : String) (headers : Headers) (body : String) :
    (String × String) × FS :=
  if method = "POST" then postResponse fs path body
  else if method = "GET" then (getResponse fs path "" headers, fs)
  else (("405 Method Not Allowed", "\r\n"), fs)

/-- Observable outcome of one connection worker. -/
inductive ConnOutcome where
  | noResponse
  | panicked
  | wrote (response : String)
deriving DecidableEq

/-- The parsing prefix of `handleConnection`: request line (abort when
`ReadLine` errs), then method and path, then `getHeaders` (abort on its
error). -/
def parsePhase (st : ConnStream) : Option (String × String × Headers × ConnStream) :=
  match bufioReadLine st with
  | none => none
  | some (requestLine, st1) =>
    match getHeadersGo st1 emptyHeaders with
    | none => none
    | some (headers, st2) => some (getMethod requestLine, getPath requestLine, headers, st2)

/-- `handleConnection(conn)`: parse, read the POST body if any, route, and
write `"HTTP/1.1 " + statusCode + "\r\n" + restResponse`.  Aborts write
nothing; the unrecovered `make([]byte, n)` panic is surfaced as
`ConnOutcome.panicked`. -/
def handleConnection (fs : FS) (st : ConnStream) : ConnOutcome × FS :=
  match parsePhase st with
  | none => (.noResponse, fs)
  | some (method, path, headers, st2) =>
    match (if method = "POST" then readBodyGo headers st2 else .ok "" st2) with
    | .panicked => (.panicked, fs)
    | .failed => (.noResponse, fs)
    | .ok body _ =>
      let r := routeSwitch fs method path headers body
      (.wrote ("HTTP/1.1 " ++ r.1.1 ++ "\r\n" ++ r.1.2), r.2)

/-- One step of `main`'s concurrency gate, a buffered channel of capacity
`N` used as a counting semaphore over the number of live connection
workers: `acquire` is the acceptor's `semaphore <- struct{}{}` followed by
`go handleConnection` (a send on a full buffered channel blocks, so it is
only enabled below `N`); `finish` is a worker's deferred `<-semaphore`,
which runs on every exit path of the goroutine. -/
inductive GateStep (N : Nat) : Nat → Nat → Prop
  | acquire (a : Nat) : a < N → GateStep N a (a + 1)
  | finish (a : Nat) : GateStep N (a + 1) a

/-- Gate states reachable from server start (no worker active). -/
inductive GateReach (N : Nat) : Nat → Prop
  | init : GateReach N 0
  | step {a b : Nat} : GateReach N a → GateStep N a b → GateReach N b

/-- Observation helper: the first CRLF-terminated line of a char sequence
(`some (line, rest)`), or `none` when no `"\r\n"` occurs. -/
def takeLine : List Char → Option (List Char × List Char)
  | [] => none
  | c :: cs =>
    if c = '\r' ∧ cs.head? = some '\n' then some ([], cs.tail)
    else (takeLine cs).map (fun p => (c :: p.1, p.2))

/-- Observation helper: split a response tail into its CRLF-terminated
header lines and the body following the first empty line; `none` when the
sequence ends inside the header section.  Fueled; `length + 1` fuel always
suffices since every line consumes at least its terminator. -/
def parseTailF : Nat → List Char → Option (List (List Char) × List Char)
  | 0, _ => none
  | fuel + 1, cs =>
    match takeLine cs with
    | none => none
    | some (l, rest) =>
      if l = [] then some ([], rest)
      else
        match parseTailF fuel rest with
        | none => none
        | some (ls, b) => some (l :: ls, b)

/-- Header lines and body of a response tail. -/
def parseTail (cs : List Char) : Option (List (List Char) × List Char) :=
  parseTailF (cs.length + 1) cs

/-- Observation: the body of a response tail — everything after the first
empty line. -/
def respBody (t : String) : String :=
  match parseTail t.data with
  | some (_, b) => b.asString
  | none => ""

/-- Observation helper: the value of the first header line that starts
with `pre` (the name followed by `": "`). -/
def headerValueIn (pre : List Char) : List (List Char) → Option (List Char)
  | [] => none
  | l :: ls =>
    if pre.isPrefixOf l then some (l.drop pre.length)
    else headerValueIn pre ls

/-- Observation: the value of header `name` in a response tail's header
section, when present. -/
def respHeaderValue (name : String) (t : String) : Option String :=
  match parseTail t.data with
  | some (lines, _) => (headerValueIn (name.data ++ [':', ' ']) lines).map List.asString
  | none => none

/-- Helper shape for response tails: `lines` each followed by CRLF, then
the empty line, then `body`. -/
def crlfBlock : List (List Char) → List Char → List Char
  | [], body => '\r' :: '\n' :: body
  | l :: ls, body => l ++ '\r' :: '\n' :: crlfBlock ls body

/-- The six recognized header names of the `Headers` struct. -/
def recognizedNames : List String :=
  ["host", "user-agent", "accept", "content-length", "content-type", "accept-encoding"]

/-- Specification-side view of one header line: the lowercased trimmed
name before the first colon when it is recognized. -/
def lineKey (line : String) : Option String :=
  match splitFirst ':' line.data with
  | none => none
  | some (np, _) =>
    let k := lowerGo (trimGo np).asString
    if k ∈ recognizedNames then some k else none

/-- Specification-side view of one header line: the trimmed value after
the first colon. -/
def lineVal (line : String) : String :=
  match splitFirst ':' line.data with
  | none => ""
  | some (_, vp) => (trimGo vp).asString

/-- Field selection of the `Headers` struct by recognized name. -/
def lookupField (hs : Headers) (k : String) : String :=
  if k = "host" then hs.host
  else if k = "user-agent" then hs.userAgent
  else if k = "accept" then hs.accept
  else if k = "content-length" then hs.contentLength
  else if k = "content-type" then hs.contentType
  else if k = "accept-encoding" then hs.acceptEncoding
  else ""

/-- The value of the last line of `ls` carrying recognized name `k`. -/
def lastHeaderValue (ls : List String) (k : String) : Option String :=
  (ls.filterMap (fun l => if lineKey l = some k then some (lineVal l) else none)).getLast?

/-- A trivial filesystem for concrete evaluations: empty, all writes
succeed. -/
def fs0 : FS :=
  ⟨fun _ => .noFile, fun _ => true⟩

/-- A filesystem whose blob `"f"` opens successfully but fails with an
I/O error after delivering `"a\nb"`. -/
def fsErr : FS :=
  ⟨fun x => if x = "f" then .ioError "a\nb" else .noFile, fun _ => true⟩

/-- A body of 65536 `'a'` bytes: one newline-free run of exactly
`bufio.MaxScanTokenSize` bytes, which makes the Files GET scan stop with
an unchecked `ErrTooLong` before yielding any token. -/
def bigBody : String :=
  ⟨List.replicate 65536 'a'⟩

theorem asString_data (s : String) : s.data.asString = s := by
  cases s; rfl

theorem takeLine_length {cs l r : List Char} (h : takeLine cs = some (l, r)) :
    r.length < cs.length := by
  induction cs generalizing l r with
  | nil => simp [takeLine] at h
  | cons c cs ih =>
    rw [takeLine] at h
    split at h
    · simp only [Option.some.injEq, Prod.mk.injEq] at h
      obtain ⟨-, rfl⟩ := h
      have := List.length_tail cs
      simp only [List.length_cons]
      omega
    · obtain ⟨p, hp, hpe⟩ := Option.map_eq_some'.mp h
      obtain ⟨-, rfl⟩ := Prod.mk.injEq .. ▸ hpe
      have := ih (l := p.1) (r := p.2) (by simpa using hp)
      simp only [List.length_cons]
      omega

theorem takeLine_noCR {l : List Char} (r : List Char) (hl : '\r' ∉ l) :
    takeLine (l ++ '\r' :: '\n' :: r) = some (l, r) := by
  induction l with
  | nil => simp [takeLine]
  | cons c l ih =>
    have hc : c ≠ '\r' := fun h => hl (h ▸ List.mem_cons_self c l)
    rw [List.cons_append, takeLine]
    rw [if_neg (by simp [hc])]
    rw [ih (fun h => hl (List.mem_cons_of_mem c h))]
    rfl

theorem parseTailF_congr {f₁ f₂ : Nat} {cs : List Char} (h₁ : cs.length < f₁)
    (h₂ : cs.length < f₂) : parseTailF f₁ cs = parseTailF f₂ cs := by
  induction f₁ generalizing f₂ cs with
  | zero => omega
  | succ g ih =>
    cases f₂ with
    | zero => omega
    | succ h =>
      rw [parseTailF, parseTailF]
      cases htl : takeLine cs with
      | none => rfl
      | some p =>
        obtain ⟨l, r⟩ := p
        have hlen := takeLine_length htl
        dsimp only
        by_cases hp : l = []
        · simp [hp]
        · have heq : parseTailF g r = parseTailF h r := ih (by omega) (by omega)
          simp [hp, heq]

theorem parseTail_blank (r : List Char) : parseTail ('\r' :: '\n' :: r) = some ([], r) := by
  rw [parseTail, parseTailF]
  have h : takeLine ('\r' :: '\n' :: r) = some ([], r) := takeLine_noCR (l := []) r (by simp)
  rw [h]
  rfl

theorem parseTail_step {l : List Char} (r : List Char) (hl : '\r' ∉ l) (hne : l ≠ []) :
    parseTail (l ++ '\r' :: '\n' :: r) =
      (parseTail r).map (fun p => (l :: p.1, p.2)) := by
  rw [parseTail, parseTailF, takeLine_noCR r hl]
  dsimp only
  rw [if_neg hne]
  have hlen2 : (l ++ '\r' :: '\n' :: r).length = l.length + 2 + r.length := by
    simp [List.length_append]
    omega
  rw [hlen2]
  rw [@parseTailF_congr (l.length + 2 + r.length) (r.length + 1) r (by omega) (by omega)]
  rw [← parseTail]
  cases parseTail r with
  | none => rfl
  | some p => rfl

theorem parseTail_crlfBlock {lines : List (List Char)} (body : List Char)
    (h : ∀ l ∈ lines, '\r' ∉ l ∧ l ≠ []) :
    parseTail (crlfBlock lines body) = some (lines, body) := by
  induction lines with
  | nil => exact parseTail_blank body
  | cons l ls ih =>
    rw [crlfBlock, parseTail_step _ (h l (List.mem_cons_self l ls)).1
      (h l (List.mem_cons_self l ls)).2]
    rw [ih (fun x hx => h x (List.mem_cons_of_mem l hx))]
    rfl

theorem decimalDigitsF_digit {fuel n : Nat} {c : Char} (h : c ∈ decimalDigitsF fuel n) :
    c.isDigit = true := by
  induction fuel generalizing n with
  | zero => simp [decimalDigitsF] at h
  | succ fuel ih =>
    rw [decimalDigitsF] at h
    have hdig : ∀ m : Nat, m < 10 → (Nat.digitChar m).isDigit = true := by decide
    split at h
    · next hn =>
      simp only [List.mem_singleton] at h
      exact h ▸ hdig n hn
    · rcases List.mem_append.mp h with h | h
      · exact ih h
      · simp only [List.mem_singleton] at h
        exact h ▸ hdig (n % 10) (Nat.mod_lt _ (by omega))

theorem isDigit_ne_cr {c : Char} (h : c.isDigit = true) : c ≠ '\r' := by
  intro hc
  subst hc
  exact absurd h (by decide)

theorem isDigit_ne_nl {c : Char} (h : c.isDigit = true) : c ≠ '\n' := by
  intro hc
  subst hc
  exact absurd h (by decide)

theorem decimalRepr_no_cr (n : Nat) : '\r' ∉ (decimalRepr n).data := by
  intro h
  exact isDigit_ne_cr (decimalDigitsF_digit h) rfl

theorem isPrefixOf_append_self (a b : List Char) : a.isPrefixOf (a ++ b) = true := by
  induction a with
  | nil => simp [List.isPrefixOf]
  | cons c a ih => simp [List.isPrefixOf, ih]

theorem data_plain_block (n : Nat) (s : String) :
    ("Content-Type: text/plain\r\nContent-Length: " ++ decimalRepr n ++ "\r\n\r\n" ++ s).data =
      crlfBlock ["Content-Type: text/plain".data,
        "Content-Length: ".data ++ (decimalRepr n).data] s.data := by
  have hA : ("Content-Type: text/plain\r\nContent-Length: " : String).data =
      "Content-Type: text/plain".data ++ '\r' :: '\n' :: "Content-Length: ".data := rfl
  have hC : ("\r\n\r\n" : String).data = ['\r', '\n', '\r', '\n'] := rfl
  simp [String.data_append, hA, hC, crlfBlock, List.append_assoc]

theorem parseTail_plain (n : Nat) (s : String) :
    parseTail ("Content-Type: text/plain\r\nContent-Length: " ++ decimalRepr n ++
      "\r\n\r\n" ++ s).data =
      some (["Content-Type: text/plain".data,
        "Content-Length: ".data ++ (decimalRepr n).data], s.data) := by
  rw [data_plain_block]
  apply parseTail_crlfBlock
  intro l hl
  simp only [List.mem_cons, List.not_mem_nil, or_false] at hl
  rcases hl with rfl | rfl
  · exact ⟨by decide, by decide⟩
  · refine ⟨fun h => ?_, by simp⟩
    rcases List.mem_append.mp h with h | h
    · exact absurd h (by decide)
    · exact decimalRepr_no_cr n h

theorem data_gzip_block (n : Nat) (s : String) :
    ("Content-Type: text/plain\r\nContent-Encoding: gzip\r\nContent-Length: " ++
      decimalRepr n ++ "\r\n\r\n" ++ s).data =
      crlfBlock ["Content-Type: text/plain".data, "Content-Encoding: gzip".data,
        "Content-Length: ".data ++ (decimalRepr n).data] s.data := by
  have hA : ("Content-Type: text/plain\r\nContent-Encoding: gzip\r\nContent-Length: " :
      String).data =
      "Content-Type: text/plain".data ++ '\r' :: '\n' ::
        ("Content-Encoding: gzip".data ++ '\r' :: '\n' :: "Content-Length: ".data) := rfl
  have hC : ("\r\n\r\n" : String).data = ['\r', '\n', '\r', '\n'] := rfl
  simp [String.data_append, hA, hC, crlfBlock, List.append_assoc]

theorem parseTail_gzip (n : Nat) (s : String) :
    parseTail ("Content-Type: text/plain\r\nContent-Encoding: gzip\r\nContent-Length: " ++
      decimalRepr n ++ "\r\n\r\n" ++ s).data =
      some (["Content-Type: text/plain".data, "Content-Encoding: gzip".data,
        "Content-Length: ".data ++ (decimalRepr n).data], s.data) := by
  rw [data_gzip_block]
  apply parseTail_crlfBlock
  intro l hl
  simp only [List.mem_cons, List.not_mem_nil, or_false] at hl
  rcases hl with rfl | rfl | rfl
  · exact ⟨by decide, by decide⟩
  · exact ⟨by decide, by decide⟩
  · refine ⟨fun h => ?_, by simp⟩
    rcases List.mem_append.mp h with h | h
    · exact absurd h (by decide)
    · exact decimalRepr_no_cr n h

theorem data_octet_block (n : Nat) (s : String) :
    ("Content-Type: application/octet-stream\r\nContent-Length: " ++ decimalRepr n ++
      "\r\n\r\n" ++ s).data =
      crlfBlock ["Content-Type: application/octet-stream".data,
        "Content-Length: ".data ++ (decimalRepr n).data] s.data := by
  have hA : ("Content-Type: application/octet-stream\r\nContent-Length: " : String).data =
      "Content-Type: application/octet-stream".data ++ '\r' :: '\n' ::
        "Content-Length: ".data := rfl
  have hC : ("\r\n\r\n" : String).data = ['\r', '\n', '\r', '\n'] := rfl
  simp [String.data_append, hA, hC, crlfBlock, List.append_assoc]

theorem parseTail_octet (n : Nat) (s : String) :
    parseTail ("Content-Type: application/octet-stream\r\nContent-Length: " ++
      decimalRepr n ++ "\r\n\r\n" ++ s).data =
      some (["Content-Type: application/octet-stream".data,
        "Content-Length: ".data ++ (decimalRepr n).data], s.data) := by
  rw [data_octet_block]
  apply parseTail_crlfBlock
  intro l hl
  simp only [List.mem_cons, List.not_mem_nil, or_false] at hl
  rcases hl with rfl | rfl
  · exact ⟨by decide, by decide⟩
  · refine ⟨fun h => ?_, by simp⟩
    rcases List.mem_append.mp h with h | h
    · exact absurd h (by decide)
    · exact decimalRepr_no_cr n h

theorem headerValueIn_skip {pre l : List Char} (ls : List (List Char))
    (h : pre.isPrefixOf l = false) :
    headerValueIn pre (l :: ls) = headerValueIn pre ls := by
  simp [headerValueIn, h]

theorem headerValueIn_hit (pre d : List Char) (ls : List (List Char)) :
    headerValueIn pre ((pre ++ d) :: ls) = some d := by
  rw [headerValueIn, if_pos (isPrefixOf_append_self pre d), List.drop_left]

theorem respBody_plain (n : Nat) (s : String) :
    respBody ("Content-Type: text/plain\r\nContent-Length: " ++ decimalRepr n ++
      "\r\n\r\n" ++ s) = s := by
  rw [respBody, parseTail_plain]
  exact asString_data s

theorem respBody_gzip (n : Nat) (s : String) :
    respBody ("Content-Type: text/plain\r\nContent-Encoding: gzip\r\nContent-Length: " ++
      decimalRepr n ++ "\r\n\r\n" ++ s) = s := by
  rw [respBody, parseTail_gzip]
  exact asString_data s

theorem respBody_octet (n : Nat) (s : String) :
    respBody ("Content-Type: application/octet-stream\r\nContent-Length: " ++
      decimalRepr n ++ "\r\n\r\n" ++ s) = s := by
  rw [respBody, parseTail_octet]
  exact asString_data s

theorem respCL_plain (n : Nat) (s : String) :
    respHeaderValue "Content-Length" ("Content-Type: text/plain\r\nContent-Length: " ++
      decimalRepr n ++ "\r\n\r\n" ++ s) = some (decimalRepr n) := by
  rw [respHeaderValue, parseTail_plain]
  dsimp only
  have h1 : headerValueIn ("Content-Length".data ++ [':', ' '])
      ["Content-Type: text/plain".data,
        "Content-Length: ".data ++ (decimalRepr n).data] = some (decimalRepr n).data := by
    rw [headerValueIn_skip _ (by decide)]
    exact headerValueIn_hit ("Content-Length".data ++ [':', ' ']) (decimalRepr n).data []
  rw [h1]
  simp [asString_data]

theorem respCL_gzip (n : Nat) (s : String) :
    respHeaderValue "Content-Length"
      ("Content-Type: text/plain\r\nContent-Encoding: gzip\r\nContent-Length: " ++
        decimalRepr n ++ "\r\n\r\n" ++ s) = some (decimalRepr n) := by
  rw [respHeaderValue, parseTail_gzip]
  dsimp only
  have h1 : headerValueIn ("Content-Length".data ++ [':', ' '])
      ["Content-Type: text/plain".data, "Content-Encoding: gzip".data,
        "Content-Length: ".data ++ (decimalRepr n).data] = some (decimalRepr n).data := by
    rw [headerValueIn_skip _ (by decide), headerValueIn_skip _ (by decide)]
    exact headerValueIn_hit ("Content-Length".data ++ [':', ' ']) (decimalRepr n).data []
  rw [h1]
  simp [asString_data]

theorem respCE_plain (n : Nat) (s : String) :
    respHeaderValue "Content-Encoding" ("Content-Type: text/plain\r\nContent-Length: " ++
      decimalRepr n ++ "\r\n\r\n" ++ s) = none := by
  rw [respHeaderValue, parseTail_plain]
  dsimp only
  have hno : ("Content-Encoding".data ++ [':', ' ']).isPrefixOf
      ("Content-Length: ".data ++ (decimalRepr n).data) = false := rfl
  rw [headerValueIn_skip _ (by decide), headerValueIn_skip _ hno]
  rfl

theorem respCE_gzip (n : Nat) (s : String) :
    respHeaderValue "Content-Encoding"
      ("Content-Type: text/plain\r\nContent-Encoding: gzip\r\nContent-Length: " ++
        decimalRepr n ++ "\r\n\r\n" ++ s) = some "gzip" := by
  rw [respHeaderValue, parseTail_gzip]
  dsimp only
  rw [headerValueIn_skip _ (by decide)]
  rfl

theorem echoMatch_slash {s : String} (h : '\n' ∉ s.data) :
    echoMatch ("/echo/" ++ s) = some s := by
  have hdata : ("/echo/" ++ s).data = "/echo".data ++ '/' :: s.data := by
    rw [String.data_append]
    rfl
  rw [echoMatch, hdata, if_pos (isPrefixOf_append_self _ _)]
  have h5 : ("/echo".data ++ '/' :: s.data).drop 5 = '/' :: s.data := by
    rw [show (5 : Nat) = ("/echo".data).length from rfl, List.drop_left]
  rw [h5]
  simp [h, asString_data]

theorem filesMatch_slash {s : String} (h : '\n' ∉ s.data) :
    filesMatch ("/files/" ++ s) = some s := by
  have hdata : ("/files/" ++ s).data = "/files".data ++ '/' :: s.data := by
    rw [String.data_append]
    rfl
  rw [filesMatch, hdata, if_pos (isPrefixOf_append_self _ _)]
  have h6 : ("/files".data ++ '/' :: s.data).drop 6 = '/' :: s.data := by
    rw [show (6 : Nat) = ("/files".data).length from rfl, List.drop_left]
  rw [h6]
  simp [h, asString_data]

theorem filesMatch_some_shape {path : String} {name : String}
    (h : filesMatch path = some name) : ∃ t, path.data = "/files".data ++ t := by
  rw [filesMatch] at h
  by_cases hp : ("/files").data.isPrefixOf path.data = true
  · exact ⟨path.data.drop 6, by
      have := List.isPrefixOf_iff_prefix.mp hp
      obtain ⟨t, ht⟩ := this
      rw [← ht, show (6 : Nat) = ("/files".data).length from rfl, List.drop_left]⟩
  · rw [if_neg hp] at h
    exact absurd h (by simp)

theorem echoMatch_some_shape {path : String} {t : String}
    (h : echoMatch path = some t) : ∃ r, path.data = "/echo".data ++ r := by
  rw [echoMatch] at h
  by_cases hp : ("/echo").data.isPrefixOf path.data = true
  · obtain ⟨r, hr⟩ := List.isPrefixOf_iff_prefix.mp hp
    exact ⟨r, hr.symm⟩
  · rw [if_neg hp] at h
    exact absurd h (by simp)

theorem getResponse_echo {fs : FS} {hs : Headers} {path : String} (lastLine : String)
    (h : ∃ r, path.data = "/echo".data ++ r) :
    getResponse fs path lastLine hs = handleEcho path hs := by
  obtain ⟨r, hr⟩ := h
  have h1 : path ≠ "/" := by
    intro hp
    rw [hp] at hr
    simp at hr
  have h2 : hasPrefixGo path "/echo" = true := by
    rw [hasPrefixGo, hr]
    exact isPrefixOf_append_self _ _
  rw [getResponse, if_neg h1, if_pos h2]

theorem getResponse_files {fs : FS} {hs : Headers} {path : String} (lastLine : String)
    (h : ∃ t, path.data = "/files".data ++ t) :
    getResponse fs path lastLine hs = (handleFiles fs path "GET" lastLine).1 := by
  obtain ⟨t, ht⟩ := h
  have h1 : path ≠ "/" := by
    intro hp
    rw [hp] at ht
    simp at ht
  have h2 : hasPrefixGo path "/echo" = false := by
    rw [hasPrefixGo, ht]
    rfl
  have h3 : path ≠ "/user-agent" := by
    intro hp
    rw [hp] at ht
    simp at ht
  have h4 : hasPrefixGo path "/files" = true := by
    rw [hasPrefixGo, ht]
    exact isPrefixOf_append_self _ _
  rw [getResponse, if_neg h1, if_pos h4]
  rw [if_neg (by simp [h2])]
  rw [if_neg h3]

theorem postResponse_files {fs : FS} {path : String} (body : String)
    (h : ∃ t, path.data = "/files".data ++ t) :
    postResponse fs path body = handleFiles fs path "POST" body := by
  obtain ⟨t, ht⟩ := h
  have h4 : hasPrefixGo path "/files" = true := by
    rw [hasPrefixGo, ht]
    exact isPrefixOf_append_self _ _
  rw [postResponse, if_pos h4]

/-- Claim C1, counterexample: the string `"a\nb"` contains no `'/'`, yet a
GET of path `"/echo/a\nb"` is answered 404, not 200 — the echo regexp's
`.` does not match a newline, so the route match fails.  The claim's
universal quantification over all slash-free strings is therefore false on
the code. -/
theorem echo_newline_cex :
    '/' ∉ ("a\nb" : String).data ∧
    (getResponse fs0 ("/echo/" ++ "a\nb") "" emptyHeaders).1 = "404 Not Found" := by
  constructor
  · decide
  · decide

/-- Claim C1 (amended): for every string `s` containing no `'/'` and no
`'\n'`, handling a GET request with path `"/echo/" ++ s` returns status
`"200 OK"` with a `Content-Length` header equal to the decimal byte length
of `s` and a body (after the blank-line separator) exactly equal to `s`. -/
theorem echo_get_ok (fs : FS) (hs : Headers) (s : String)
    (hslash : '/' ∉ s.data) (hnl : '\n' ∉ s.data) :
    (getResponse fs ("/echo/" ++ s) "" hs).1 = "200 OK" ∧
    respHeaderValue "Content-Length" (getResponse fs ("/echo/" ++ s) "" hs).2 =
      some (decimalRepr (goLen s)) ∧
    respBody (getResponse fs ("/echo/" ++ s) "" hs).2 = s := by
  have hm : echoMatch ("/echo/" ++ s) = some s := echoMatch_slash hnl
  rw [getResponse_echo "" (echoMatch_some_shape hm), handleEcho, hm]
  dsimp only
  by_cases hse : s = ""
  · subst hse
    rw [if_pos rfl]
    exact ⟨rfl, by decide, by decide⟩
  · rw [if_neg hse]
    by_cases hgz : hs.acceptEncoding = "gzip"
    · rw [if_pos hgz]
      exact ⟨rfl, respCL_gzip _ _, respBody_gzip _ _⟩
    · rw [if_neg hgz]
      exact ⟨rfl, respCL_plain _ _, respBody_plain _ _⟩

/-- Claim C1 witness: the amended theorem applied at `s = "abc"`. -/
theorem echo_get_ok_witness :
    (getResponse fs0 ("/echo/" ++ "abc") "" emptyHeaders).1 = "200 OK" ∧
    respHeaderValue "Content-Length" (getResponse fs0 ("/echo/" ++ "abc") "" emptyHeaders).2 =
      some (decimalRepr (goLen "abc")) ∧
    respBody (getResponse fs0 ("/echo/" ++ "abc") "" emptyHeaders).2 = "abc" :=
  echo_get_ok fs0 emptyHeaders "abc" (by decide) (by decide)

/-- Claim C6: for every GET of a path the echo route matches with
non-empty echoed text `t`, the response is 200, it carries a
`Content-Encoding: gzip` header exactly when the request's accept-encoding
header value is the exact string `"gzip"`, and the body is the
uncompressed `t` verbatim in either case. -/
theorem echo_gzip_iff (fs : FS) (hs : Headers) (path t : String)
    (hm : echoMatch path = some t) (hne : t ≠ "") :
    (getResponse fs path "" hs).1 = "200 OK" ∧
    (respHeaderValue "Content-Encoding" (getResponse fs path "" hs).2 = some "gzip" ↔
      hs.acceptEncoding = "gzip") ∧
    respBody (getResponse fs path "" hs).2 = t := by
  rw [getResponse_echo "" (echoMatch_some_shape hm), handleEcho, hm]
  dsimp only
  rw [if_neg hne]
  by_cases hgz : hs.acceptEncoding = "gzip"
  · rw [if_pos hgz]
    exact ⟨rfl, ⟨fun _ => hgz, fun _ => respCE_gzip _ _⟩, respBody_gzip _ _⟩
  · rw [if_neg hgz]
    refine ⟨rfl, ⟨fun hce => ?_, fun hg => absurd hg hgz⟩, respBody_plain _ _⟩
    rw [respCE_plain] at hce
    exact absurd hce (by simp)

/-- Claim C6 witness: the theorem applied at path `"/echo/xy"` with a
header set whose accept-encoding is `"gzip, deflate"` (not an exact
`"gzip"`), so no `Content-Encoding` header appears. -/
theorem echo_gzip_iff_witness :
    (getResponse fs0 "/echo/xy" ""
      ⟨"", "", "", "", "", "gzip, deflate"⟩).1 = "200 OK" ∧
    (respHeaderValue "Content-Encoding" (getResponse fs0 "/echo/xy" ""
      ⟨"", "", "", "", "", "gzip, deflate"⟩).2 = some "gzip" ↔
      ("gzip, deflate" : String) = "gzip") ∧
    respBody (getResponse fs0 "/echo/xy" ""
      ⟨"", "", "", "", "", "gzip, deflate"⟩).2 = "xy" :=
  echo_gzip_iff fs0 ⟨"", "", "", "", "", "gzip, deflate"⟩ "/echo/xy" "xy"
    (by decide) (by decide)

theorem filesMatch_slash_nl {s : String} (h : '\n' ∈ s.data) :
    filesMatch ("/files/" ++ s) = none := by
  have hdata : ("/files/" ++ s).data = "/files".data ++ '/' :: s.data := by
    rw [String.data_append]
    rfl
  rw [filesMatch, hdata, if_pos (isPrefixOf_append_self _ _)]
  have h6 : ("/files".data ++ '/' :: s.data).drop 6 = '/' :: s.data := by
    rw [show (6 : Nat) = ("/files".data).length from rfl, List.drop_left]
  rw [h6]
  simp [h]

theorem readStringNL_no_nl {d : List Char} (h : '\n' ∉ d) : readStringNL d = none := by
  induction d with
  | nil => rfl
  | cons c cs ih =>
    have hc : c ≠ '\n' := fun hh => h (hh ▸ List.mem_cons_self c cs)
    rw [readStringNL, if_neg hc, ih (fun hh => h (List.mem_cons_of_mem c hh))]
    rfl

theorem dropCR_no_cr {b : List Char} (h : '\r' ∉ b) : dropCR b = b := by
  rw [dropCR, if_neg]
  intro hl
  have hx : '\r' ∈ b.getLast? := by rw [hl]; rfl
  obtain ⟨hne, heq⟩ := List.mem_getLast?_eq_getLast hx
  exact h (heq ▸ List.getLast_mem hne)

theorem goStrip_id {b : String} (hn : '\n' ∉ b.data) (hr : '\r' ∉ b.data)
    (hsz : goLen b < maxScanTokenSize) : goStrip b = b := by
  rw [goStrip, scanGo, scanGoF, readStringNL_no_nl hn]
  dsimp only
  by_cases hb : b.data = []
  · rw [if_pos hb]
    cases b with
    | mk l =>
      simp only at hb
      subst hb
      rfl
  · rw [if_neg hb]
    have hszc : ¬ maxScanTokenSize ≤ (b.data.asString).utf8ByteSize := by
      rw [asString_data]
      exact Nat.not_le.mpr hsz
    rw [if_neg hszc, dropCR_no_cr hr]
    show String.join [b.data.asString] = b
    rw [asString_data]
    cases b with
    | mk l => rfl

theorem utf8ByteSize_replicate (n : Nat) :
    (⟨List.replicate n 'a'⟩ : String).utf8ByteSize = n := by
  induction n with
  | zero => rfl
  | succ n ih =>
    show (⟨'a' :: List.replicate n 'a'⟩ : String).utf8ByteSize = n + 1
    have h : ∀ l : List Char,
        (⟨'a' :: l⟩ : String).utf8ByteSize = (⟨l⟩ : String).utf8ByteSize + 1 :=
      fun l => rfl
    rw [h, ih]

theorem scanGo_too_long {d : List Char} (hn : '\n' ∉ d) (hd : d ≠ [])
    (hsz : maxScanTokenSize ≤ (d.asString).utf8ByteSize) : scanGo d = [] := by
  rw [scanGo, scanGoF, readStringNL_no_nl hn]
  dsimp only
  rw [if_neg hd, if_pos hsz]

theorem files_post_get (fs : FS) (hs : Headers) (n b : String)
    (hnl : '\n' ∉ n.data) (hne : n ≠ "") (hw : fs.writeOk n = true) :
    (postResponse fs ("/files/" ++ n) b).1.1 = "201 Created" ∧
    getResponse (postResponse fs ("/files/" ++ n) b).2 ("/files/" ++ n) "" hs =
      ("200 OK",
        "Content-Type: application/octet-stream\r\nContent-Length: " ++
          decimalRepr (goLen (goStrip b)) ++ "\r\n\r\n" ++ goStrip b) := by
  have hshape : ∃ t, ("/files/" ++ n).data = "/files".data ++ t :=
    ⟨'/' :: n.data, by rw [String.data_append]; rfl⟩
  have hm := filesMatch_slash hnl
  rw [postResponse_files b hshape, handleFiles, hm]
  dsimp only
  rw [if_neg (by decide), if_pos rfl, if_neg hne, if_pos hw]
  constructor
  · rfl
  · rw [getResponse_files "" hshape, handleFiles, hm]
    dsimp only
    rw [if_pos rfl, if_neg hne]
    have hread : (if n = n then ReadResult.ok b else fs.read n) = ReadResult.ok b := by simp
    rw [hread]

/-- Claim C2: for every name `n` and body `b`, if `POST /files/n` with
body `b` succeeds (the handler answers `201 Created`), a following
`GET /files/n` against the updated filesystem answers 200 with a body
equal to `b` after the scanner's read transform (`goStrip`: line
terminators stripped, content truncated at the first line of
`bufio.MaxScanTokenSize` bytes or more, since the scan error is never
checked); in particular the body is exactly `b` whenever `b` contains no
line-terminator byte (`'\n'` or `'\r'`) and is shorter than 64 KB. -/
theorem files_roundtrip (fs : FS) (hs : Headers) (n b : String)
    (hpost : (postResponse fs ("/files/" ++ n) b).1.1 = "201 Created") :
    (getResponse (postResponse fs ("/files/" ++ n) b).2 ("/files/" ++ n) "" hs).1 =
      "200 OK" ∧
    respBody (getResponse (postResponse fs ("/files/" ++ n) b).2 ("/files/" ++ n) "" hs).2 =
      goStrip b ∧
    ('\n' ∉ b.data → '\r' ∉ b.data → goLen b < maxScanTokenSize →
      respBody (getResponse (postResponse fs ("/files/" ++ n) b).2
        ("/files/" ++ n) "" hs).2 = b) := by
  have hshape : ∃ t, ("/files/" ++ n).data = "/files".data ++ t :=
    ⟨'/' :: n.data, by rw [String.data_append]; rfl⟩
  rw [postResponse_files b hshape] at hpost ⊢
  by_cases hnl : '\n' ∈ n.data
  · rw [handleFiles, filesMatch_slash_nl hnl] at hpost
    exact absurd (show ("404 Not Found" : String) = "201 Created" from hpost) (by decide)
  · have hm := filesMatch_slash hnl
    rw [handleFiles, hm] at hpost ⊢
    dsimp only at hpost ⊢
    rw [if_neg (by decide), if_pos rfl] at hpost ⊢
    by_cases hne : n = ""
    · rw [if_pos hne] at hpost
      exact absurd (show ("400 Bad Request" : String) = "201 Created" from hpost) (by decide)
    · rw [if_neg hne] at hpost ⊢
      by_cases hw : fs.writeOk n = true
      · rw [if_pos hw]
        rw [getResponse_files "" hshape, handleFiles, hm]
        dsimp only
        rw [if_pos rfl, if_neg hne]
        have hr : (if n = n then ReadResult.ok b else fs.read n) = ReadResult.ok b := by
          simp
        rw [hr]
        dsimp only
        refine ⟨rfl, respBody_octet _ _, fun hbn hbr hbs => ?_⟩
        rw [respBody_octet]
        exact goStrip_id hbn hbr hbs
      · rw [if_neg hw] at hpost
        exact absurd (show ("500 Internal Server Error" : String) = "201 Created" from hpost)
          (by decide)

/-- Claim C2 witness: the theorem applied at name `"f"`, body `"hello"`,
over the empty filesystem. -/
theorem files_roundtrip_witness :
    (getResponse (postResponse fs0 ("/files/" ++ "f") "hello").2
      ("/files/" ++ "f") "" emptyHeaders).1 = "200 OK" ∧
    respBody (getResponse (postResponse fs0 ("/files/" ++ "f") "hello").2
      ("/files/" ++ "f") "" emptyHeaders).2 = goStrip "hello" ∧
    ('\n' ∉ ("hello" : String).data → '\r' ∉ ("hello" : String).data →
      goLen "hello" < maxScanTokenSize →
      respBody (getResponse (postResponse fs0 ("/files/" ++ "f") "hello").2
        ("/files/" ++ "f") "" emptyHeaders).2 = "hello") :=
  files_roundtrip fs0 emptyHeaders "f" "hello" (by decide)

/-- Claim C2, counterexample: `bigBody` is 65536 `'a'` bytes — it
contains no line-terminator byte at all — yet the round trip loses it
entirely: the POST succeeds with 201, and the following GET answers 200
with an empty body, because the scan hits `bufio.MaxScanTokenSize`
without a newline, stops with the unchecked `ErrTooLong`, and serves
nothing.  The claim's promise that a terminator-free body round-trips
exactly is false on the code. -/
theorem files_roundtrip_cex :
    ('\n' ∉ bigBody.data ∧ '\r' ∉ bigBody.data ∧ bigBody ≠ "") ∧
    (postResponse fs0 ("/files/" ++ "big") bigBody).1.1 = "201 Created" ∧
    (getResponse (postResponse fs0 ("/files/" ++ "big") bigBody).2
      ("/files/" ++ "big") "" emptyHeaders).1 = "200 OK" ∧
    respBody (getResponse (postResponse fs0 ("/files/" ++ "big") bigBody).2
      ("/files/" ++ "big") "" emptyHeaders).2 = "" := by
  have hn : '\n' ∉ bigBody.data := by
    intro h
    rw [bigBody] at h
    rcases (List.mem_replicate.mp h) with ⟨-, hc⟩
    exact absurd hc (by decide)
  have hr : '\r' ∉ bigBody.data := by
    intro h
    rw [bigBody] at h
    rcases (List.mem_replicate.mp h) with ⟨-, hc⟩
    exact absurd hc (by decide)
  have hb0 : bigBody.data ≠ [] := by
    intro h
    have hlen : bigBody.data.length = 65536 := by
      rw [bigBody]
      exact List.length_replicate 65536 'a'
    rw [h] at hlen
    exact absurd hlen (by decide)
  have hne : bigBody ≠ "" := by
    intro h
    exact hb0 (by rw [h])
  have hsz : maxScanTokenSize ≤ (bigBody.data.asString).utf8ByteSize := by
    rw [asString_data]
    exact Nat.le_of_eq (utf8ByteSize_replicate 65536).symm
  have hstrip : goStrip bigBody = "" := by
    rw [goStrip, scanGo_too_long hn hb0 hsz]
    rfl
  obtain ⟨hpost, hget⟩ :=
    files_post_get fs0 emptyHeaders "big" bigBody (by decide) (by decide) rfl
  refine ⟨⟨hn, hr, hne⟩, hpost, ?_, ?_⟩
  · rw [hget]
  · rw [hget, hstrip]
    exact respBody_octet (goLen "") ""

/-- Claim C5, counterexample: reading blob `"f"` fails partway through
(an I/O error after `"a\nb"`), yet `GET /files/f` answers 200 — the Go
loop never checks `scanner.Err()`, so a mid-read failure is not turned
into a 404 as the claim requires. -/
theorem files_read_fail_cex :
    fsErr.read "f" = ReadResult.ioError "a\nb" ∧
    (getResponse fsErr "/files/f" "" emptyHeaders).1 = "200 OK" := by
  constructor
  · decide
  · decide

/-- Claim C5 (amended): for every `GET /files/<name>` with non-empty
matched name, the response is `404 Not Found` (with empty tail `"\r\n"`)
exactly when opening the blob fails; whenever the open succeeds the
response is 200 — even when an I/O error interrupts the read partway, in
which case the content read so far is served (the scan error is ignored). -/
theorem files_read_fail (fs : FS) (hs : Headers) (path name : String)
    (hm : filesMatch path = some name) (hne : name ≠ "") :
    ((getResponse fs path "" hs).1 = "404 Not Found" ↔ fs.read name = .noFile) ∧
    (fs.read name = .noFile → getResponse fs path "" hs = ("404 Not Found", "\r\n")) ∧
    ((getResponse fs path "" hs).1 = "404 Not Found" ∨
      (getResponse fs path "" hs).1 = "200 OK") := by
  rw [getResponse_files "" (filesMatch_some_shape hm), handleFiles, hm]
  dsimp only
  rw [if_pos rfl, if_neg hne]
  cases hread : fs.read name with
  | noFile => exact ⟨by simp, fun _ => rfl, Or.inl rfl⟩
  | ok c =>
    refine ⟨⟨fun h => absurd (show ("200 OK" : String) = "404 Not Found" from h) (by decide),
      fun h => by simp at h⟩, fun h => ?_, Or.inr rfl⟩
    simp at h
  | ioError p =>
    refine ⟨⟨fun h => absurd (show ("200 OK" : String) = "404 Not Found" from h) (by decide),
      fun h => by simp at h⟩, fun h => ?_, Or.inr rfl⟩
    simp at h

/-- Claim C5 witness: the amended theorem applied at path `"/files/g"`
over the empty filesystem, where the open fails and the response is the
404 with empty tail. -/
theorem files_read_fail_witness :
    ((getResponse fs0 "/files/g" "" emptyHeaders).1 = "404 Not Found" ↔
      fs0.read "g" = .noFile) ∧
    (fs0.read "g" = .noFile →
      getResponse fs0 "/files/g" "" emptyHeaders = ("404 Not Found", "\r\n")) ∧
    ((getResponse fs0 "/files/g" "" emptyHeaders).1 = "404 Not Found" ∨
      (getResponse fs0 "/files/g" "" emptyHeaders).1 = "200 OK") :=
  files_read_fail fs0 emptyHeaders "/files/g" "g" (by decide) (by decide)

theorem parseTail_crlf_only : parseTail ("\r\n" : String).data = some ([], []) :=
  parseTail_blank []

theorem parseTail_cl0 :
    parseTail ("Content-Type: text/plain\r\nContent-Length: 0\r\n\r\n" : String).data =
      some (["Content-Type: text/plain".data, "Content-Length: 0".data], []) := by
  decide

/-- Claim C8, counterexample: routing `GET /` produces the Route Result
`("200 OK", "\r\n")`; its rest-of-response text is the bare empty line and
does not end with the string `"\r\n\r\n"`, so the claim as stated (every
rest-of-response ends with `"\r\n\r\n"`) fails even though there is no
body. -/
theorem route_tail_cex :
    (routeSwitch fs0 "GET" "/" emptyHeaders "").1.2 = "\r\n" ∧
    ("\r\n\r\n").data.isSuffixOf ((routeSwitch fs0 "GET" "/" emptyHeaders "").1.2).data =
      false := by
  constructor
  · decide
  · decide

/-- Claim C8 (amended): for every method, path, header set and body, the
rest-of-response text of the Route Result consists of zero or more
non-empty CRLF-terminated header lines followed by one empty line (the
header/body separator) followed by the body: splitting it at the first
empty line always succeeds, even when there is no body. -/
theorem route_tail_blank (fs : FS) (method path : String) (hs : Headers) (body : String) :
    ∃ lines bodyTail,
      parseTail ((routeSwitch fs method path hs body).1.2).data = some (lines, bodyTail) := by
  rw [routeSwitch]
  by_cases hpost : method = "POST"
  · rw [if_pos hpost, postResponse]
    by_cases hp : hasPrefixGo path "/files" = true
    · rw [if_pos hp, handleFiles]
      cases hfm : filesMatch path with
      | none => exact ⟨_, _, parseTail_crlf_only⟩
      | some nm =>
        dsimp only
        rw [if_neg (by decide), if_pos rfl]
        by_cases hnm : nm = ""
        · rw [if_pos hnm]
          exact ⟨_, _, parseTail_crlf_only⟩
        · rw [if_neg hnm]
          by_cases hw : fs.writeOk nm = true
          · rw [if_pos hw]
            exact ⟨_, _, parseTail_crlf_only⟩
          · rw [if_neg hw]
            exact ⟨_, _, parseTail_crlf_only⟩
    · rw [if_neg hp]
      exact ⟨_, _, parseTail_crlf_only⟩
  · rw [if_neg hpost]
    by_cases hget : method = "GET"
    · rw [if_pos hget, getResponse]
      by_cases h1 : path = "/"
      · rw [if_pos h1]
        exact ⟨_, _, parseTail_crlf_only⟩
      · rw [if_neg h1]
        by_cases h2 : hasPrefixGo path "/echo" = true
        · rw [if_pos h2, handleEcho]
          cases hem : echoMatch path with
          | none => exact ⟨_, _, parseTail_crlf_only⟩
          | some t =>
            dsimp only
            by_cases ht : t = ""
            · rw [if_pos ht]
              exact ⟨_, _, parseTail_cl0⟩
            · rw [if_neg ht]
              by_cases hgz : hs.acceptEncoding = "gzip"
              · rw [if_pos hgz]
                exact ⟨_, _, parseTail_gzip _ _⟩
              · rw [if_neg hgz]
                exact ⟨_, _, parseTail_plain _ _⟩
        · rw [if_neg h2]
          by_cases h3 : path = "/user-agent"
          · rw [if_pos h3, handleUserAgent]
            exact ⟨_, _, parseTail_plain _ _⟩
          · rw [if_neg h3]
            by_cases h4 : hasPrefixGo path "/files" = true
            · rw [if_pos h4, handleFiles]
              cases hfm : filesMatch path with
              | none => exact ⟨_, _, parseTail_crlf_only⟩
              | some nm =>
                dsimp only
                rw [if_pos rfl]
                by_cases hnm : nm = ""
                · rw [if_pos hnm]
                  exact ⟨_, _, parseTail_cl0⟩
                · rw [if_neg hnm]
                  cases fs.read nm with
                  | noFile => exact ⟨_, _, parseTail_crlf_only⟩
                  | ok c => exact ⟨_, _, parseTail_octet _ _⟩
                  | ioError p => exact ⟨_, _, parseTail_octet _ _⟩
            · rw [if_neg h4]
              exact ⟨_, _, parseTail_crlf_only⟩
    · rw [if_neg hget]
      exact ⟨_, _, parseTail_crlf_only⟩

/-- Claim C9: every state of `main`'s concurrency gate reachable from
server start keeps the number of active connection workers at or below
the gate size `N`; when exactly `N` are active the only enabled step is a
worker's release (the acceptor blocks), and any admission step
requires that fewer than `N` workers were active. -/
theorem gate_bound (N a : Nat) (h : GateReach N a) :
    a ≤ N ∧
    (a = N → ∀ b, GateStep N a b → b + 1 = a) ∧
    (∀ b, GateStep N a b → b = a + 1 → a < N) := by
  have hle : a ≤ N := by
    induction h with
    | init => exact Nat.zero_le N
    | step hr hs ih =>
      cases hs with
      | acquire a ha => omega
      | finish a => omega
  refine ⟨hle, fun hfull b hs => ?_, fun b hs hb => ?_⟩
  · cases hs with
    | acquire a ha => omega
    | finish a => omega
  · cases hs with
    | acquire a ha => exact ha
    | finish a => omega

/-- Claim C9 witness: with gate size 1 the state with one active worker is
reachable by one admission, it satisfies the bound, it blocks further
admissions, and any step from it is a release. -/
theorem gate_bound_witness :
    1 ≤ 1 ∧
    (1 = 1 → ∀ b, GateStep 1 1 b → b + 1 = 1) ∧
    (∀ b, GateStep 1 1 b → b = 1 + 1 → 1 < 1) :=
  gate_bound 1 1 (GateReach.step GateReach.init (GateStep.acquire 0 (by decide)))

theorem lookupField_updateHeader (hs : Headers) (line : String) (k : String)
    (hk : k ∈ recognizedNames) :
    lookupField (updateHeader hs line) k =
      if lineKey line = some k then lineVal line else lookupField hs k := by
  rw [updateHeader, lineKey, lineVal]
  cases hsp : splitFirst ':' line.data with
  | none =>
    dsimp only
    rw [if_neg (by simp)]
  | some p =>
    obtain ⟨np, vp⟩ := p
    dsimp only
    generalize (trimGo vp).asString = hv
    generalize hhn : lowerGo (trimGo np).asString = hn
    have hcond : (if hn ∈ recognizedNames then some hn else none) = some k ↔ hn = k := by
      constructor
      · intro hc
        by_cases hm : hn ∈ recognizedNames
        · rw [if_pos hm] at hc
          simpa using hc
        · rw [if_neg hm] at hc
          exact absurd hc (by simp)
      · intro h
        rw [if_pos (h ▸ hk), h]
    by_cases hk1 : hn = k
    · rw [if_pos (hcond.mpr hk1), hk1]
      simp only [recognizedNames, List.mem_cons, List.not_mem_nil, or_false] at hk
      rcases hk with rfl | rfl | rfl | rfl | rfl | rfl <;> rfl
    · rw [if_neg (fun hc => hk1 (hcond.mp hc))]
      simp only [recognizedNames, List.mem_cons, List.not_mem_nil, or_false] at hk
      rcases hk with rfl | rfl | rfl | rfl | rfl | rfl <;> split_ifs <;> rfl

/-- Claim C7: processing any sequence of header lines through the
`getHeaders` per-line update leaves values only in the six recognized
fields of the `Headers` struct (the struct has no others, and a line whose
lowercased trimmed name is unrecognized, or has no colon, changes
nothing); names are matched case-insensitively via the lowercasing in
`lineKey`; and for each recognized name the resulting field holds the
value of the last line carrying that name (falling back to the initial
field value when no line does). -/
theorem headers_last_wins (ls : List String) (hs : Headers) (k : String)
    (hk : k ∈ recognizedNames) :
    lookupField (ls.foldl updateHeader hs) k =
      (lastHeaderValue ls k).getD (lookupField hs k) := by
  induction ls generalizing hs with
  | nil => rfl
  | cons l ls ih =>
    have hrhs : lastHeaderValue (l :: ls) k =
        if lineKey l = some k then some ((lastHeaderValue ls k).getD (lineVal l))
        else lastHeaderValue ls k := by
      by_cases hl : lineKey l = some k
      · rw [lastHeaderValue, List.filterMap_cons, if_pos hl]
        dsimp only
        rw [List.getLast?_cons, if_pos hl, ← lastHeaderValue]
      · rw [lastHeaderValue, List.filterMap_cons, if_neg hl]
        dsimp only
        rw [if_neg hl, ← lastHeaderValue]
    rw [List.foldl_cons, ih (updateHeader hs l), hrhs, lookupField_updateHeader hs l k hk]
    by_cases hl : lineKey l = some k
    · rw [if_pos hl, if_pos hl, Option.getD_some]
    · rw [if_neg hl, if_neg hl]

/-- Claim C7 witness: the theorem applied to the line sequence
`["HOST: a", "X-Custom: z", "hOsT:  b"]` and the key `"host"`: the
unrecognized line is dropped and the last, differently-cased `hOsT` line
wins. -/
theorem headers_last_wins_witness :
    lookupField ((["HOST: a", "X-Custom: z", "hOsT:  b"]).foldl updateHeader emptyHeaders)
      "host" =
      (lastHeaderValue ["HOST: a", "X-Custom: z", "hOsT:  b"] "host").getD
        (lookupField emptyHeaders "host") :=
  headers_last_wins ["HOST: a", "X-Custom: z", "hOsT:  b"] emptyHeaders "host" (by decide)

/-- Claim C3: a POST request carrying `Content-Length: -1` drives the
worker into `make([]byte, -1)` — `strconv.Atoi` returns -1 with a nil
error, and a negative `make` length is an unrecovered runtime panic.  In
the real program the panic of this goroutine terminates the whole
process, killing the acceptor loop and every other connection, so the
claim that the worker is total and errors stay local to one connection is
contradicted by the code at this input. -/
theorem negative_content_length_panics :
    (handleConnection fs0
      ⟨("POST /files/a HTTP/1.1\r\nContent-Length: -1\r\n\r\n" : String).data, false⟩).1 =
      ConnOutcome.panicked := by
  decide

/-- Claim C4, counterexample: the stream delivering `"GET / HTTP/1.1"`
and then closing has no newline, so it ends before a complete request
line is observed; the claim requires the worker to abort without writing,
but `bufio.Reader.ReadLine` hands the partial data back with a nil error
and the worker serves a full `200 OK` response. -/
theorem partial_request_line_cex :
    '\n' ∉ ("GET / HTTP/1.1" : String).data ∧
    (handleConnection fs0 ⟨("GET / HTTP/1.1" : String).data, false⟩).1 =
      ConnOutcome.wrote "HTTP/1.1 200 OK\r\n\r\n" := by
  exact ⟨by decide, by decide⟩

/-- Claim C4 (amended): the worker aborts without writing any response
exactly when the stream yields no byte at all (then `ReadLine` reports the
error and the worker returns before writing, whether the end was a clean
close or an I/O error); if at least one byte arrived but the stream ends
before any newline, the partial data is used as the request line and
processing continues to a written response. -/
theorem request_line_abort :
    (∀ (fs : FS) (b : Bool), handleConnection fs ⟨[], b⟩ = (ConnOutcome.noResponse, fs)) ∧
    (∀ (fs : FS) (d : List Char), d ≠ [] → '\n' ∉ d →
      ∃ resp fs', handleConnection fs ⟨d, false⟩ = (ConnOutcome.wrote resp, fs')) := by
  constructor
  · intro fs b
    rfl
  · intro fs d hd hnl
    have hbr : bufioReadLine ⟨d, false⟩ = some (d.asString, ⟨[], false⟩) := by
      rw [bufioReadLine]
      dsimp only
      rw [readStringNL_no_nl hnl, if_neg hd]
    rw [handleConnection, parsePhase, hbr]
    dsimp only
    have hgh : getHeadersGo ⟨[], false⟩ emptyHeaders = some (emptyHeaders, ⟨[], false⟩) := rfl
    rw [hgh]
    dsimp only
    by_cases hm : getMethod d.asString = "POST"
    · rw [if_pos hm]
      have hb : readBodyGo emptyHeaders ⟨[], false⟩ = .ok "" ⟨[], false⟩ := rfl
      rw [hb]
      exact ⟨_, _, rfl⟩
    · rw [if_neg hm]
      exact ⟨_, _, rfl⟩

/-- Claim C4 witness: the amended theorem applied to the one-byte stream
`"X"`, which closes before any newline yet still gets a response. -/
theorem request_line_abort_witness :
    ∃ resp fs', handleConnection fs0 ⟨("X" : String).data, false⟩ =
      (ConnOutcome.wrote resp, fs') :=
  request_line_abort.2 fs0 ("X" : String).data (by decide) (by decide)

/-- Claim C10, counterexample: the content-length value
`"99999999999999999999"` does not parse (`strconv.Atoi` reports a range
error), yet the worker does not treat the body as empty and route
normally: `Atoi` returns the clamped `maxInt64` together with the
discarded error, and `make([]byte, maxInt64)` exceeds the runtime
allocation limit, so the worker panics — the same unrecovered
process-killing panic as the negative case. -/
theorem range_content_length_cex :
    (goAtoi "99999999999999999999").2 = false ∧
    (goAtoi "99999999999999999999").1 ≠ 0 ∧
    (handleConnection fs0
      ⟨("POST /files/a HTTP/1.1\r\nContent-Length: 99999999999999999999\r\n\r\n" :
        String).data, false⟩).1 = ConnOutcome.panicked := by
  refine ⟨by decide, by decide, by decide⟩

/-- Claim C10 (amended): for every POST whose content-length header is
absent or not a syntactically valid optional-sign decimal integer
(`parseDec` fails — note an out-of-range decimal is instead clamped, not
zeroed), `Atoi` yields 0 with its error discarded, the worker reads an
empty body without failing, and the request is routed normally through
`postResponse`. -/
theorem post_bad_content_length (fs : FS) (st : ConnStream) (method path : String)
    (hs : Headers) (st2 : ConnStream)
    (hp : parsePhase st = some (method, path, hs, st2))
    (hm : method = "POST")
    (hcl : parseDec hs.contentLength = none) :
    handleConnection fs st =
      (ConnOutcome.wrote ("HTTP/1.1 " ++ (postResponse fs path "").1.1 ++ "\r\n" ++
        (postResponse fs path "").1.2), (postResponse fs path "").2) := by
  rw [handleConnection, hp]
  dsimp only
  subst hm
  rw [if_pos rfl]
  have hb : readBodyGo hs st2 = .ok "" st2 := by
    rw [readBodyGo, goAtoi, hcl]
    dsimp only
    rw [if_neg (by decide)]
    rw [readFull, if_pos (show Int.toNat 0 ≤ st2.data.length from Nat.zero_le _)]
    rfl
  rw [hb]
  dsimp only
  rw [routeSwitch, if_pos rfl]

/-- Claim C10 witness: the amended theorem applied to a concrete POST
whose content-length value is the unparseable `"xyz"`; the request is
routed normally and the file write succeeds with an empty body. -/
theorem post_bad_content_length_witness :
    handleConnection fs0
      ⟨("POST /files/a HTTP/1.1\r\nContent-Length: xyz\r\n\r\n" : String).data, false⟩ =
      (ConnOutcome.wrote ("HTTP/1.1 " ++ (postResponse fs0 "/files/a" "").1.1 ++ "\r\n" ++
        (postResponse fs0 "/files/a" "").1.2), (postResponse fs0 "/files/a" "").2) :=
  post_bad_content_length fs0
    ⟨("POST /files/a HTTP/1.1\r\nContent-Length: xyz\r\n\r\n" : String).data, false⟩
    "POST" "/files/a" ⟨"", "", "", "xyz", "", ""⟩ ⟨[], false⟩ (by decide) rfl (by decide)
